import Mathlib

/-!
Shallow embedding of the evodash01 trading engine (Python sources under
`src/`) and proofs about the spec's claims.  All money amounts, prices and
times are modelled as rationals; `time.time()` values are passed explicitly
as parameters; per-iteration API results are passed as an environment.
-/

namespace Evodash

/-- Python's `Decimal(q).quantize(Decimal('0.00000001'), rounding=ROUND_DOWN)`
(`round_amount` in `scalp_runner`): floor to 8 fractional digits. -/
def floor8 (x : ℚ) : ℚ := (⌊x * 100000000⌋ : ℚ) / 100000000

/-- Python's banker's rounding (`round(x, 8)`) on the 8th fractional digit:
round half to even. -/
def roundHalfEven (x : ℚ) : ℤ :=
  let f := ⌊x⌋
  let frac := x - f
  if frac < 1/2 then f
  else if 1/2 < frac then f + 1
  else if f % 2 = 0 then f else f + 1

/-- `round(x, 8)` in Python. -/
def round8 (x : ℚ) : ℚ := (roundHalfEven (x * 100000000) : ℚ) / 100000000

/-- Python's `a or b` for an optional float `a`: `None` and `0.0` are falsy. -/
def pyOr (a : Option ℚ) (b : ℚ) : ℚ :=
  match a with
  | none => b
  | some x => if x = 0 then b else x

/-! ## SafetySystem (`dash01_refactored.py`, lines 895-927)

The daily reset (`datetime.now().date() != self.start_time`) is modelled as
never firing: all runs considered happen within one UTC day. -/

structure SafetySystem where
  maxDailyLoss : ℚ
  minWinRate : ℚ
  dailyPnl : ℚ
  tradeHistory : List ℚ
deriving Repr, DecidableEq

/-- `SafetySystem.check_trade(pnl)`: append the sample, then deny on daily
loss or (with ≥ 5 samples) on win rate below the minimum. -/
def SafetySystem.checkTrade (s : SafetySystem) (pnl : ℚ) : Bool × SafetySystem :=
  let s := { s with dailyPnl := s.dailyPnl + pnl,
                    tradeHistory := s.tradeHistory ++ [pnl] }
  if s.dailyPnl < -s.maxDailyLoss then (false, s)
  else if 5 ≤ s.tradeHistory.length then
    let wins := (s.tradeHistory.filter (fun t => 0 < t)).length
    let winRate := (wins : ℚ) / (s.tradeHistory.length : ℚ)
    if winRate < s.minWinRate then (false, s) else (true, s)
  else (true, s)

/-- A fresh `SafetySystem(max_daily_loss, min_win_rate)`. -/
def SafetySystem.init (maxDailyLoss minWinRate : ℚ) : SafetySystem :=
  ⟨maxDailyLoss, minWinRate, 0, []⟩

/-! ## The `scalp_runner` main loop for an engine that completes no trade
(`dash01_refactored.py`, lines 4603-4642)

Loop guard: `trades_done < max_trades and safety.check_trade(0) and
main_loop_iterations < max_main_loop_iterations` (left to right, short
circuit).  The body increments the iteration counter, then either takes the
circuit-breaker `continue` (modelled by `blocked`, skipping the rest of the
body) or runs the per-iteration `safety.check_trade(0)` whose denial
`break`s.  Since no trade completes, `trades_done` stays 0 and the state
machine's branches never touch `safety`; they are omitted here.  `fuel`
makes the recursion structural; callers pass `fuel ≥ maxIter + 1` so it
never runs out before the source's own bounds stop the loop. -/

def scalpNoTradeLoop (maxTrades maxIter : ℕ) (blocked : ℕ → Bool) :
    ℕ → ℕ → SafetySystem → ℕ × SafetySystem
  | 0, iters, s => (iters, s)
  | fuel + 1, iters, s =>
    if maxTrades = 0 then (iters, s)
    else
      let (ok, s1) := s.checkTrade 0
      if ¬ok then (iters, s1)
      else if maxIter ≤ iters then (iters, s1)
      else
        let iters' := iters + 1
        if blocked iters' then scalpNoTradeLoop maxTrades maxIter blocked fuel iters' s1
        else
          let (ok2, s2) := s1.checkTrade 0
          if ¬ok2 then (iters', s2)
          else scalpNoTradeLoop maxTrades maxIter blocked fuel iters' s2

/-- A safety state holding `n` zero-valued samples and zero daily P&L. -/
def zeroSafety (maxDailyLoss minWinRate : ℚ) (n : ℕ) : SafetySystem :=
  ⟨maxDailyLoss, minWinRate, 0, List.replicate n 0⟩

/-! ## The `scalp_runner` state machine (`dash01_refactored.py`, lines 4513-5079)

The per-iteration results of the exchange API (wallet balance, ticker, best
book price, order-placement outcomes) are supplied as an environment. -/

inductive ScalpState
  | waitingToBuy
  | positionOpen
  | waitingForSell
deriving Repr, DecidableEq

inductive Side
  | buy
  | sell
deriving Repr, DecidableEq

/-- An order submitted through `client.place_spot_order`. -/
structure Order where
  side : Side
  amount : ℚ
  price : ℚ
deriving Repr, DecidableEq

/-- What the loop observes from the exchange within one iteration. -/
structure ScalpEnv where
  /-- raw `get_wallet_balance(currency)` for the base asset -/
  balance : ℚ
  /-- `get_ticker(pair)` -/
  ticker : Option ℚ
  /-- `get_best_book_price(pair, side='sell')` -/
  bestBid : Option ℚ
  /-- whether a buy placed this iteration returns without `'error'` -/
  buyOk : Bool
  /-- whether a sell placed this iteration returns without `'error'` -/
  sellOk : Bool
  /-- `time.time()` during this iteration -/
  now : ℚ
deriving Repr, DecidableEq

/-- `scalp_runner`'s user parameters used by the state machine. -/
structure ScalpParams where
  targetPct : ℚ
  usdtPerTrade : ℚ
  timeoutMinutes : ℚ
deriving Repr, DecidableEq

/-- Mutable engine variables of `scalp_runner` (lines 4522-4542). -/
structure EngineVars where
  state : ScalpState
  entryPrice : ℚ
  quantity : ℚ
  positionTime : ℚ
  dcaAvg : ℚ
  dcaTotalInvested : ℚ
  dcaL1 : Bool
  dcaL2 : Bool
  dcaL3 : Bool
  tradesDone : ℕ
  safety : SafetySystem
deriving Repr, DecidableEq

/-- The public and private methods defined by `class GateIOClient`
(`dash01_refactored.py`, lines 2192-2862), transcribed in order. -/
def gateIOClientMethods : List String :=
  ["__init__", "_cleanup_caches", "_generate_sign", "_request",
   "_classify_api_error", "get_spot_accounts", "get_gt_fee_info",
   "get_gt_balance", "get_effective_fee_rate", "get_gt_status_summary",
   "get_ticker", "get_all_spot_pairs", "validate_pair_exists",
   "get_order_book", "get_order_status", "place_spot_order",
   "get_all_buy_trades", "get_wallet_balance",
   "calculate_real_portfolio_data", "_convert_fee_to_usdt",
   "get_best_book_price"]

/-- `self.client.list_spot_orders(pair, status='open')`: attribute lookup on
the client.  The class defines no such method, so the call raises
`AttributeError` before any request is made. -/
def listSpotOrdersCall : Except String (List Order) :=
  if "list_spot_orders" ∈ gateIOClientMethods then Except.ok []
  else Except.error "AttributeError"

/-- `check_open_orders` (lines 4571-4582): the bare `except` swallows the
`AttributeError` and returns `False`. -/
def checkOpenOrders : Bool :=
  match listSpotOrdersCall with
  | Except.ok orders => orders.any (fun o => o.side = Side.sell)
  | Except.error _ => false

/-- `get_position_info` (lines 4557-4561): the raw balance when it is truthy
and above the 0.0001 dust threshold, else 0. -/
def positionInfo (balance : ℚ) : ℚ :=
  if balance ≠ 0 ∧ (1/10000 : ℚ) < balance then balance else 0

/-- `calculate_strategy_pnl` (lines 4563-4569). -/
def strategyPnl (currentPrice entryPrice : ℚ) : ℚ :=
  if entryPrice ≤ 0 ∨ currentPrice ≤ 0 then 0
  else (currentPrice - entryPrice) / entryPrice * 100

/-- `WAITING_FOR_SELL` handler (lines 4649-4678). -/
def stepWaitingForSell (env : ScalpEnv) (v : EngineVars) : EngineVars × List Order :=
  let _hasSell := checkOpenOrders
  let pos := positionInfo env.balance
  if pos = 0 then
    let profitPnl : ℚ :=
      if 0 < v.entryPrice then
        let currentPrice := pyOr env.ticker v.entryPrice
        (currentPrice - v.entryPrice) / v.entryPrice * 100
      else 0
    let safety := (v.safety.checkTrade (profitPnl / 100)).2
    ({ v with state := ScalpState.waitingToBuy, tradesDone := v.tradesDone + 1,
              entryPrice := 0, quantity := 0, safety := safety }, [])
  else if ¬_hasSell then
    ({ v with state := ScalpState.positionOpen }, [])
  else
    (v, [])

/-- Forced-sell timeout at the end of the no-target branch of
`POSITION_OPEN` (lines 5061-5076).  Note the `or` fallback (a `0.0` best bid
falls back to `current_price · 0.999`). -/
def timeoutForcedSell (p : ScalpParams) (env : ScalpEnv) (v : EngineVars)
    (cur : ℚ) (orders : List Order) : EngineVars × List Order :=
  if 0 < p.timeoutMinutes ∧ p.timeoutMinutes * 60 < env.now - v.positionTime then
    let sellPrice := round8 (pyOr env.bestBid (cur * (999/1000)))
    let o : Order := ⟨Side.sell, v.quantity, sellPrice⟩
    if env.sellOk then ({ v with state := ScalpState.waitingForSell }, orders ++ [o])
    else (v, orders ++ [o])
  else (v, orders)

/-- The DCA-monitoring block of the `POSITION_OPEN` handler (lines
4964-5059, the `if strategy_pnl < 0` chain).  DCA triggers and multipliers
are the hard-coded `dca_levels` dict of lines 4536-4540:
level1 `(-2, ×2)`, level2 `(-5, ×3)`, level3 `(-10, ×0)` (stop loss). -/
def dcaMonitoring (p : ScalpParams) (env : ScalpEnv) (v : EngineVars) (cur : ℚ) :
    EngineVars × List Order :=
  let pnl := strategyPnl cur v.entryPrice
  if pnl < 0 then
    if pnl ≤ -2 ∧ ¬v.dcaL1 then
      let dcaAmount := p.usdtPerTrade * 2
      let dcaQty := dcaAmount / cur
      let o : Order := ⟨Side.buy, dcaQty, cur * (1002/1000)⟩
      if env.buyOk then
        let totalQty := v.quantity + dcaQty
        let avg := (v.quantity * v.entryPrice + dcaQty * cur) / totalQty
        ({ v with quantity := totalQty, entryPrice := avg, dcaAvg := avg,
                  dcaTotalInvested := v.dcaTotalInvested + dcaAmount,
                  dcaL1 := true }, [o])
      else (v, [o])
    else if pnl ≤ -5 ∧ ¬v.dcaL2 ∧ v.dcaL1 then
      let dcaAmount := p.usdtPerTrade * 3
      let dcaQty := dcaAmount / cur
      let o : Order := ⟨Side.buy, dcaQty, cur * (1002/1000)⟩
      if env.buyOk then
        let totalQty := v.quantity + dcaQty
        let avg := (v.quantity * v.entryPrice + dcaQty * cur) / totalQty
        ({ v with quantity := totalQty, entryPrice := avg, dcaAvg := avg,
                  dcaTotalInvested := v.dcaTotalInvested + dcaAmount,
                  dcaL2 := true }, [o])
      else (v, [o])
    else if pnl ≤ -10 ∧ ¬v.dcaL3 then
      -- stop loss: best bid itself, not rounded (explicit `is None` check)
      let sellPrice := match env.bestBid with
        | some b => b
        | none => cur * (995/1000)
      let o : Order := ⟨Side.sell, v.quantity, sellPrice⟩
      if env.sellOk then
        ({ v with dcaL3 := true, state := ScalpState.waitingForSell }, [o])
      else (v, [o])
    else (v, ([] : List Order))
  else (v, ([] : List Order))

/-- `POSITION_OPEN` handler (lines 4907-5079). -/
def stepPositionOpen (p : ScalpParams) (env : ScalpEnv) (v : EngineVars) :
    EngineVars × List Order :=
  let pos := positionInfo env.balance
  if pos = 0 then
    ({ v with state := ScalpState.waitingToBuy, tradesDone := v.tradesDone + 1 }, [])
  else if 0 < v.entryPrice then
    let effectiveEntry := if v.dcaL1 ∨ v.dcaL2 then v.dcaAvg else v.entryPrice
    let targetPrice := effectiveEntry * (1 + p.targetPct / 100)
    let cur := pyOr env.ticker v.entryPrice
    if targetPrice ≤ cur then
      -- target reached: sell at the best book price (explicit `is None` check)
      let sellPrice := round8 (match env.bestBid with
        | some b => b
        | none => cur * (999/1000))
      let o : Order := ⟨Side.sell, v.quantity, sellPrice⟩
      if env.sellOk then ({ v with state := ScalpState.waitingForSell }, [o])
      else (v, [o])
    else
      let r := dcaMonitoring p env v cur
      timeoutForcedSell p env r.1 cur r.2
  else
    (v, [])

/-! ## The aggressive-buy fill-wait loop (`dash01_refactored.py`, lines 4814-4905)

`optimal_buy_price = round(max(1e-8, best_ask · 1.002), 8)`, quantity floored
to 8 digits; then the balance is polled (≤ 25 attempts within ≤ 5 s, one
entry of `polls` per loop pass — the list ending early models the 5 s
expiring).  Note that in the source the bookkeeping lines 4862-4875 sit
inside the `except` handler, not on the exception-free success path. -/

def optimalBuyPrice (bestAsk : ℚ) : ℚ :=
  round8 (max (1/100000000) (bestAsk * (1002/1000)))

def buyQty (adaptiveSize price : ℚ) : ℚ := floor8 (adaptiveSize / price)

/-- One `get_wallet_balance` poll: a balance, or an exception. -/
inductive PollOutcome
  | bal (b : ℚ)
  | exc
deriving Repr, DecidableEq

/-- Outcome of the fill-wait `while` loop. -/
structure FillRes where
  /-- `executed` flag (set only on the exception-free confirming poll) -/
  executed : Bool
  /-- `current_state = POSITION_OPEN` was set inside the loop (except path) -/
  stateSet : Bool
  /-- `position_entry_price` assigned inside the loop, else 0 untouched -/
  entry : ℚ
  /-- `position_quantity` assigned inside the loop, else 0 untouched -/
  qty : ℚ
  /-- last bound value of `bal`, if any -/
  lastBal : Option ℚ
  attempts : ℕ
  /-- `bal` referenced while unbound (`NameError` escapes the handler) -/
  nameError : Bool
deriving Repr, DecidableEq

/-- The `while time.time() < wait_until and balance_check_attempts < 25`
loop (lines 4846-4876), transcribed branch by branch. -/
def fillWaitLoop (qtyOrd price : ℚ) :
    List PollOutcome → ℕ → Option ℚ → FillRes
  | [], att, lb => ⟨false, false, 0, 0, lb, att, false⟩
  | o :: rest, att, lb =>
    if 25 ≤ att then ⟨false, false, 0, 0, lb, att, false⟩
    else
      let att' := att + 1
      match o with
      | PollOutcome.bal b =>
        if b ≠ 0 ∧ qtyOrd * (999/1000) ≤ b then
          ⟨true, false, 0, 0, some b, att', false⟩
        else fillWaitLoop qtyOrd price rest att' (some b)
      | PollOutcome.exc =>
        if 25 ≤ att' then ⟨false, false, 0, 0, lb, att', false⟩
        else
          match lb with
          | none => ⟨false, false, 0, 0, none, att', true⟩
          | some b => ⟨false, true, price, b, some b, att', false⟩

/-- How the engine variables look after the fill-wait loop and the code
that follows it (lines 4878-4905): on `executed` only `current_state` is set
to `POSITION_OPEN` (line 4900); the except-path assignment additionally
carries the entry bookkeeping and the DCA reset of lines 4865-4874. -/
def afterBuyFill (env : ScalpEnv) (p : ScalpParams) (r : FillRes) (v : EngineVars) :
    EngineVars :=
  if r.nameError then v
  else if r.stateSet then
    { v with state := ScalpState.positionOpen, entryPrice := r.entry,
             quantity := r.qty, positionTime := env.now,
             dcaL1 := false, dcaL2 := false, dcaL3 := false,
             dcaTotalInvested := p.usdtPerTrade, dcaAvg := r.entry }
  else if r.executed then { v with state := ScalpState.positionOpen }
  else v

/-- Engine variables at the start of a fresh `scalp_runner` call
(lines 4529-4542). -/
def initVars (maxDailyLoss minWinRate : ℚ) : EngineVars :=
  { state := ScalpState.waitingToBuy, entryPrice := 0, quantity := 0,
    positionTime := 0, dcaAvg := 0, dcaTotalInvested := 0,
    dcaL1 := false, dcaL2 := false, dcaL3 := false, tradesDone := 0,
    safety := SafetySystem.init maxDailyLoss minWinRate }

/-! ## SafeSleepManager (`safe_sleep_manager.py`)

`time.sleep` is modelled as sleeping exactly the requested duration, and the
random jitter factor (`random.uniform(0.9, 1.1)`) is passed in explicitly
with each call. -/

structure SleepLimits where
  minSleep : ℚ
  maxSleep : ℚ
  defaultSleep : ℚ
  maxTotalWait : ℚ
deriving Repr, DecidableEq

inductive SleepContext
  | apiRetry
  | tradingCycle
  | errorRecovery
  | circuitBreaker
  | dataPolling
  | balanceCheck
deriving Repr, DecidableEq

/-- `SafeSleepManager._sanitize_duration` (lines 186-210). -/
def sanitizeDuration (lim : SleepLimits) (duration : ℚ) (ctx : SleepContext) : ℚ :=
  if duration ≤ 0 then lim.minSleep
  else
    let maxAllowed := match ctx with
      | SleepContext.circuitBreaker => min duration 600
      | SleepContext.apiRetry => min duration lim.maxSleep
      | _ => min duration (min lim.maxSleep 30)
    max lim.minSleep (min maxAllowed duration)

structure SleepMgr where
  limits : SleepLimits
  totalSleepTime : ℚ
  sleepCount : ℕ
deriving Repr, DecidableEq

/-- `SafeSleepManager.safe_sleep` (lines 56-100): sanitize, check the total
budget with the pre-jitter duration, then apply jitter and sleep. -/
def safeSleep (m : SleepMgr) (duration : ℚ) (ctx : SleepContext)
    (jitter : Bool) (jitterFactor : ℚ) : Bool × SleepMgr :=
  let sd := sanitizeDuration m.limits duration ctx
  if m.limits.maxTotalWait < m.totalSleepTime + sd then (false, m)
  else
    let sd := if jitter ∧ ctx ≠ SleepContext.circuitBreaker then
        max m.limits.minSleep (sd * jitterFactor)
      else sd
    (true, { m with totalSleepTime := m.totalSleepTime + sd,
                    sleepCount := m.sleepCount + 1 })

/-- `create_trading_sleep_manager` (lines 234-242). -/
def createTradingSleepManager : SleepMgr :=
  ⟨⟨1/10, 30, 1/2, 1800⟩, 0, 0⟩

/-- `create_api_sleep_manager` (lines 245-253). -/
def createApiSleepManager : SleepMgr :=
  ⟨⟨1/5, 300, 1, 3600⟩, 0, 0⟩

/-- One recorded `safe_sleep` call of a session. -/
structure SleepCall where
  duration : ℚ
  ctx : SleepContext
  jitter : Bool
  jitterFactor : ℚ
deriving Repr, DecidableEq

/-- A session: the manager after a sequence of `safe_sleep` calls. -/
def runSleeps (m : SleepMgr) (calls : List SleepCall) : SleepMgr :=
  calls.foldl (fun m c => (safeSleep m c.duration c.ctx c.jitter c.jitterFactor).2) m

/-! ## CircuitBreaker (`api_retry_manager.py`, lines 136-176) -/

inductive CBState
  | closed
  | opened
  | halfOpen
deriving Repr, DecidableEq

structure CircuitBreaker where
  failureThreshold : ℕ
  recoveryTimeout : ℚ
  failureCount : ℕ
  lastFailureTime : ℚ
  state : CBState
deriving Repr, DecidableEq

def CircuitBreaker.init (threshold : ℕ) (recovery : ℚ) : CircuitBreaker :=
  ⟨threshold, recovery, 0, 0, CBState.closed⟩

/-- `CircuitBreaker.record_failure` (lines 146-153). -/
def CircuitBreaker.recordFailure (b : CircuitBreaker) (now : ℚ) : CircuitBreaker :=
  let b := { b with failureCount := b.failureCount + 1, lastFailureTime := now }
  if b.failureThreshold ≤ b.failureCount then { b with state := CBState.opened }
  else b

/-- `CircuitBreaker.record_success` (lines 155-160). -/
def CircuitBreaker.recordSuccess (b : CircuitBreaker) : CircuitBreaker :=
  if b.state = CBState.halfOpen then
    { b with state := CBState.closed, failureCount := 0 }
  else b

/-- `CircuitBreaker.can_proceed` (lines 162-176); moves `OPEN → HALF_OPEN`
once the recovery timeout has elapsed. -/
def CircuitBreaker.canProceed (b : CircuitBreaker) (now : ℚ) :
    Bool × CircuitBreaker :=
  match b.state with
  | CBState.closed => (true, b)
  | CBState.opened =>
    if b.recoveryTimeout ≤ now - b.lastFailureTime then
      (true, { b with state := CBState.halfOpen })
    else (false, b)
  | CBState.halfOpen => (true, b)

/-- Events driving a `CircuitBreaker` instance over its lifetime. -/
inductive CBEvent
  | fail (now : ℚ)
  | succ
  | proceed (now : ℚ)
deriving Repr, DecidableEq

def CircuitBreaker.applyEvent (b : CircuitBreaker) : CBEvent → CircuitBreaker
  | CBEvent.fail n => b.recordFailure n
  | CBEvent.succ => b.recordSuccess
  | CBEvent.proceed n => (b.canProceed n).2

/-- The breaker reached from a fresh instance by a sequence of events. -/
def runCB (threshold : ℕ) (recovery : ℚ) (evs : List CBEvent) : CircuitBreaker :=
  evs.foldl CircuitBreaker.applyEvent (CircuitBreaker.init threshold recovery)

/-! ## OrderFailureTracker (`dash01_refactored.py`, lines 593-666) -/

structure OrderFailureTracker where
  maxFailures : ℕ
  cooldownSeconds : ℚ
  failureCount : ℕ
  lastFailureTime : ℚ
  circuitOpen : Bool
  consecutiveFailures : ℕ
  backoffMultiplier : ℚ
  maxBackoff : ℚ
deriving Repr, DecidableEq

/-- `OrderFailureTracker(max_failures=5, cooldown_seconds=60)`. -/
def OrderFailureTracker.init : OrderFailureTracker :=
  ⟨5, 60, 0, 0, false, 0, 3/2, 300⟩

/-- `OrderFailureTracker.record_failure` (lines 612-636); the per-kind tally
is reporting-only and omitted. -/
def OrderFailureTracker.recordFailure (t : OrderFailureTracker) (now : ℚ) :
    OrderFailureTracker :=
  let t := { t with failureCount := t.failureCount + 1,
                    consecutiveFailures := t.consecutiveFailures + 1,
                    lastFailureTime := now }
  if t.maxFailures ≤ t.failureCount then { t with circuitOpen := true } else t

/-- `OrderFailureTracker.record_success` (lines 642-646). -/
def OrderFailureTracker.recordSuccess (t : OrderFailureTracker) :
    OrderFailureTracker :=
  { t with failureCount := 0, consecutiveFailures := 0, circuitOpen := false }

/-- `OrderFailureTracker.can_place_order` (lines 648-666): with the circuit
closed, a consecutive-failure exponential backoff window denies orders;
with it open, the cooldown expiry resets everything. -/
def OrderFailureTracker.canPlaceOrder (t : OrderFailureTracker) (now : ℚ) :
    Bool × OrderFailureTracker :=
  if ¬t.circuitOpen then
    if 0 < t.consecutiveFailures then
      let backoffTime :=
        min (t.cooldownSeconds * t.backoffMultiplier ^ (t.consecutiveFailures - 1))
            t.maxBackoff
      if now - t.lastFailureTime < backoffTime then (false, t) else (true, t)
    else (true, t)
  else if t.cooldownSeconds ≤ now - t.lastFailureTime then
    (true, { t with circuitOpen := false, failureCount := 0,
                    consecutiveFailures := 0 })
  else (false, t)

/-! ## ApiRetryManager.execute_with_retry (`api_retry_manager.py`, lines 213-261)

Restricted to an always-failing operation with a non-rate-limit error type
(the scenario of the skipped-attempt claim): the `for attempt in
range(1, max_attempts + 1)` loop is a pass over the attempt numbers; an
iteration whose `can_make_request()` is false `continue`s (operation not
invoked), otherwise the operation is invoked and raises, and the loop breaks
once `attempt >= max_attempts`. -/

def retryLoopGo (maxAttempts : ℕ) (canReq : ℕ → Bool) :
    List ℕ → ℕ → ℕ
  | [], invocations => invocations
  | a :: rest, invocations =>
    if canReq a then
      let invocations := invocations + 1
      if maxAttempts ≤ a then invocations
      else retryLoopGo maxAttempts canReq rest invocations
    else retryLoopGo maxAttempts canReq rest invocations

/-- Number of actual operation invocations performed by
`execute_with_retry` on an always-failing operation, given the per-iteration
`can_make_request` results. -/
def retryInvocations (maxAttempts : ℕ) (canReq : ℕ → Bool) : ℕ :=
  retryLoopGo maxAttempts canReq (List.range' 1 maxAttempts) 0

/-! ## SessionManager and BudgetCoordinator (`session_manager.py`) -/

inductive BotState
  | starting
  | running
  | paused
  | stopped
  | errored
deriving Repr, DecidableEq

/-- A `BotStatus` record of the shared state (fields used by the claims). -/
structure BotStatus where
  pair : String
  status : BotState
  allocatedBudget : ℚ
  errorsCount : ℕ
deriving Repr, DecidableEq

/-- `SessionManager._check_workers_health` (lines 378-392) on the shared
`bots` table: a dead worker's record gets `status = ERROR` and an error
count bump; `_cleanup_worker` only drops the in-memory process handle. -/
def checkWorkersHealth (dead : List String) (bots : List BotStatus) :
    List BotStatus :=
  bots.map (fun b =>
    if b.pair ∈ dead then
      { b with status := BotState.errored, errorsCount := b.errorsCount + 1 }
    else b)

/-- `BudgetCoordinator.deallocate_budget` (lines 249-255): sets the bot's
allocation to 0 (then recomputes the global budget). -/
def deallocateBudget (pair : String) (bots : List BotStatus) : List BotStatus :=
  bots.map (fun b =>
    if b.pair = pair then { b with allocatedBudget := 0 } else b)

/-- The `allocated_usdt` sum of `BudgetCoordinator.update_budget_info`
(lines 212-218): only `RUNNING`/`STARTING` bots count. -/
def allocatedUsdt (bots : List BotStatus) : ℚ :=
  ((bots.filter (fun b =>
      b.status = BotState.running ∨ b.status = BotState.starting)).map
    (fun b => b.allocatedBudget)).sum

/-- The invariant claimed for every bot record: a positive allocation
exactly for the starting/running statuses. -/
def budgetStatusInvariant (b : BotStatus) : Prop :=
  0 < b.allocatedBudget ↔
    (b.status = BotState.starting ∨ b.status = BotState.running)

/-! ## SmartCache and the GateIOClient caches (`dash01_refactored.py`) -/

/-- `SmartCache` (lines 1734-1767): `cache` and `cache_times` dicts,
modelled as association lists. -/
structure SmartCache (α : Type) where
  cache : List (String × α)
  cacheTimes : List (String × ℚ)
deriving Repr, DecidableEq

def alistLookup {α : Type} (l : List (String × α)) (k : String) : Option α :=
  (l.find? (fun p => p.1 = k)).map (fun p => p.2)

def alistErase {α : Type} (l : List (String × α)) (k : String) :
    List (String × α) :=
  l.filter (fun p => ¬p.1 = k)

def alistInsert {α : Type} (l : List (String × α)) (k : String) (v : α) :
    List (String × α) :=
  (k, v) :: alistErase l k

def SmartCache.empty {α : Type} : SmartCache α := ⟨[], []⟩

/-- `SmartCache.get(key, max_age_seconds)` at time `now`. -/
def SmartCache.get {α : Type} (c : SmartCache α) (now : ℚ) (key : String)
    (maxAge : ℚ) : Option α × SmartCache α :=
  match alistLookup c.cache key with
  | none => (none, c)
  | some v =>
    let age := now - ((alistLookup c.cacheTimes key).getD 0)
    if maxAge < age then
      (none, ⟨alistErase c.cache key, alistErase c.cacheTimes key⟩)
    else (some v, c)

/-- `SmartCache.set(key, value)` at time `now`. -/
def SmartCache.setAt {α : Type} (c : SmartCache α) (now : ℚ) (key : String)
    (v : α) : SmartCache α :=
  ⟨alistInsert c.cache key v, alistInsert c.cacheTimes key now⟩

/-- `self.cache.pop(key, None)` as done by `_refresh_portfolio_data`
(only the value dict is popped, not `cache_times`). -/
def SmartCache.popKey {α : Type} (c : SmartCache α) (key : String) :
    SmartCache α :=
  ⟨alistErase c.cache key, c.cacheTimes⟩

/-- `SmartCache.clear_expired(max_age_seconds)` at time `now`. -/
def SmartCache.clearExpired {α : Type} (c : SmartCache α) (now : ℚ)
    (maxAge : ℚ) : SmartCache α :=
  let expired := (c.cacheTimes.filter (fun p => maxAge < now - p.2)).map
    (fun p => p.1)
  ⟨c.cache.filter (fun p => ¬p.1 ∈ expired),
   c.cacheTimes.filter (fun p => ¬p.1 ∈ expired)⟩

/-- A buy-trade record built by `get_all_buy_trades` (lines 2666-2675);
the display-only `fee_estimated` flag is omitted. -/
structure BuyTrade where
  price : ℚ
  amount : ℚ
  valueUsdt : ℚ
  timestamp : ℤ
  fee : ℚ
  feeCurrency : String
  orderId : String
deriving Repr, DecidableEq

/-- A raw `/spot/my_trades` entry as the exchange reports it. -/
structure RawTrade where
  side : Side
  price : ℚ
  amount : ℚ
  createTimeMs : ℤ
  /-- `none` models `fee` being `None`/empty/unparsable -/
  fee : Option ℚ
  feeCurrency : String
  orderId : String
deriving Repr, DecidableEq

/-- `TradingConfig.DEFAULT_TAKER_FEE = 0.002`. -/
def defaultTakerFee : ℚ := 2/1000

/-- The per-trade conversion of `get_all_buy_trades` (lines 2646-2675):
keep buys, parse the fee with a 0 fallback, estimate a 0 fee at 0.2 % of the
trade value. -/
def buildBuyTrades (trades : List RawTrade) : List BuyTrade :=
  (trades.filter (fun t => t.side = Side.buy)).map (fun t =>
    let feeAmount := t.fee.getD 0
    let tradeValue := t.price * t.amount
    let (feeAmount, feeCurrency) :=
      if feeAmount = 0 then (tradeValue * defaultTakerFee, "USDT")
      else (feeAmount, t.feeCurrency)
    { price := t.price, amount := t.amount, valueUsdt := t.price * t.amount,
      timestamp := t.createTimeMs, fee := feeAmount,
      feeCurrency := feeCurrency, orderId := t.orderId })

/-- The `buy_trades.sort(key=timestamp, reverse=True)` of line 2678
(stable, most recent first). -/
def insertByTsDesc (t : BuyTrade) : List BuyTrade → List BuyTrade
  | [] => [t]
  | h :: hs =>
    if h.timestamp < t.timestamp then t :: h :: hs
    else h :: insertByTsDesc t hs

def sortByTsDesc (l : List BuyTrade) : List BuyTrade :=
  l.foldr insertByTsDesc []

/-- The cache-relevant state of a `GateIOClient` (lines 2239-2245):
stratified caches plus the periodic-cleanup clock.  The indicator cache
(candlestick data) never interacts with the claims and is left out. -/
structure GateClient where
  priceCache : SmartCache ℚ
  statsCache : SmartCache (List BuyTrade)
  lastCacheCleanup : ℚ
deriving Repr, DecidableEq

/-- What the exchange itself holds, as observed through `_request`. -/
structure ExchangeView where
  /-- `/spot/accounts`: currency ↦ (available, locked) -/
  accounts : List (String × ℚ × ℚ)
  /-- `/spot/my_trades` for the pair under consideration -/
  myTrades : List RawTrade
deriving Repr, DecidableEq

/-- `GateIOClient._cleanup_caches` (lines 2252-2259), which `_request` runs
first on every call: once a minute, sweep entries older than 5 s from the
price cache and 120 s from the stats cache. -/
def cleanupCaches (c : GateClient) (now : ℚ) : GateClient :=
  if 60 < now - c.lastCacheCleanup then
    { priceCache := c.priceCache.clearExpired now 5,
      statsCache := c.statsCache.clearExpired now 120,
      lastCacheCleanup := now }
  else c

/-- `GateIOClient.get_wallet_balance(currency)` (lines 2687-2704): cache
lookup with the 5 s `orderbook` timeout, else read `/spot/accounts`
(through `_request`, hence after a possible cache sweep) and cache
`available + locked`. -/
def getWalletBalance (c : GateClient) (ex : ExchangeView) (now : ℚ)
    (currency : String) : ℚ × GateClient :=
  let key := "wallet_" ++ currency
  match c.priceCache.get now key 5 with
  | (some b, pc) => (b, { c with priceCache := pc })
  | (none, pc) =>
    let c := cleanupCaches { c with priceCache := pc } now
    match (ex.accounts.find? (fun a => a.1 = currency)) with
    | some (_, av, lk) =>
      (av + lk, { c with priceCache := c.priceCache.setAt now key (av + lk) })
    | none => (0, c)

/-- `GateIOClient.get_all_buy_trades(pair)` (lines 2622-2685): cache lookup
with the 60 s `stats` timeout; on a miss, fetch through `_request` (which
runs the periodic cache sweep) and — when the exchange reports no trades
(a falsy `all_trades`, lines 2642-2643) — return `[]` early *without
caching*; otherwise convert, sort and cache the result. -/
def getAllBuyTrades (c : GateClient) (ex : ExchangeView) (now : ℚ)
    (pair : String) : List BuyTrade × GateClient :=
  let key := "buy_trades_" ++ pair
  match c.statsCache.get now key 60 with
  | (some ts, sc) => (ts, { c with statsCache := sc })
  | (none, sc) =>
    let c := cleanupCaches { c with statsCache := sc } now
    if ex.myTrades = [] then ([], c)
    else
      let buyTrades := sortByTsDesc (buildBuyTrades ex.myTrades)
      (buyTrades, { c with statsCache := c.statsCache.setAt now key buyTrades })

/-- `GateIOLimits.get_min_order_value_with_margin()` (lines 107-115):
5 USDT · 1.15. -/
def minOrderValueWithMargin : ℚ := 5 * (115/100)

/-- `GateIOClient.place_spot_order` (lines 2586-2620): validate, then POST
through `_request` (which runs the periodic cache sweep).  No cache entry is
invalidated.  Returns whether the call produced an `'error'` dict. -/
def placeSpotOrder (c : GateClient) (now : ℚ) (pair side : String)
    (amount price : ℚ) (exchangeAccepts : Bool) : Bool × GateClient :=
  if pair = "" ∨ side = "" ∨ amount = 0 ∨ price = 0 then (false, c)
  else if amount ≤ 0 ∨ price ≤ 0 then (false, c)
  else if amount * price < minOrderValueWithMargin then (false, c)
  else (exchangeAccepts, cleanupCaches c now)

/-- `CursesDashboard._refresh_portfolio_data` (lines 3680-3695): pop the
base asset's wallet-balance entry and the pair's buy-trades entry.  This
helper is called only from the manual dashboard order paths (lines 3582 and
4035), never from `scalp_runner` or from the client itself. -/
def refreshPortfolioData (c : GateClient) (pair : String) : GateClient :=
  let currency := ((pair.splitOn "_").headD pair)
  { c with priceCache := c.priceCache.popKey ("wallet_" ++ currency),
           statsCache := c.statsCache.popKey ("buy_trades_" ++ pair) }

/-! ## Claim scenarios: concrete inputs used by the theorems below -/

def envC5 : ScalpEnv := ⟨1, some 101, some 100, true, true, 0⟩

def varsC5 : EngineVars :=
  ⟨ScalpState.waitingForSell, 100, 1, 0, 100, 50, false, false, false, 0,
    SafetySystem.init (3/20) (3/10)⟩

def pC1 : ScalpParams := ⟨1, 50, 5⟩

def qtyC1 : ℚ := buyQty 50 (optimalBuyPrice 100)

def fillC1 : FillRes :=
  fillWaitLoop qtyC1 (optimalBuyPrice 100) [PollOutcome.bal qtyC1] 0 none

def envC1 : ScalpEnv := ⟨qtyC1, some 200, some 199, true, true, 0⟩

def varsC1 : EngineVars := afterBuyFill envC1 pC1 fillC1 (initVars (3/20) (3/10))

def pC4 : ScalpParams := ⟨1, 50, 0⟩

def envC4 : ScalpEnv := ⟨1, some 88, some 87, true, true, 0⟩

def varsC4 : EngineVars :=
  ⟨ScalpState.positionOpen, 100, 1, 0, 100, 50, false, false, false, 0,
    SafetySystem.init (3/20) (3/10)⟩

def varsC3 : EngineVars :=
  ⟨ScalpState.waitingForSell, 100, 1, 0, 100, 50, false, false, false, 0,
    SafetySystem.init (3/20) (3/10)⟩

def envC3a : ScalpEnv := ⟨1, some 101, some 100, true, true, 0⟩

def envC3b : ScalpEnv := ⟨0, some 101, some 100, true, true, 1⟩

def varsC3' : EngineVars := (stepWaitingForSell envC3a varsC3).1

def varsC3'' : EngineVars := (stepPositionOpen ⟨1, 50, 0⟩ envC3b varsC3').1

def botsC6 : List BotStatus := [⟨"BTC_USDT", BotState.running, 50, 0⟩]

def sleepLimC7 : SleepLimits := ⟨1/10, 300, 1/2, 10⟩

/-- The reachability invariant of `CircuitBreaker`: away from `CLOSED`, the
failure count has reached the threshold (the count is only reset together
with a move to `CLOSED`). -/
def CBInv (b : CircuitBreaker) : Prop :=
  b.state ≠ CBState.closed → b.failureThreshold ≤ b.failureCount

def evsC8 : List CBEvent :=
  [CBEvent.fail 0, CBEvent.fail 0, CBEvent.fail 0, CBEvent.fail 0,
   CBEvent.fail 0, CBEvent.proceed 301]

/-- A buy fill already on the exchange before the order under test. -/
def tradeC10a : RawTrade := ⟨Side.buy, 100, 1, 1000, some (1/5), "USDT", "o1"⟩

/-- The buy fill produced by the order placed at `t = 1`. -/
def tradeC10b : RawTrade := ⟨Side.buy, 10, 1, 2000, some (1/50), "USDT", "o2"⟩

def exC10a : ExchangeView := ⟨[("BTC", (5, 0))], [tradeC10a]⟩

def exC10b : ExchangeView := ⟨[("BTC", (7, 0))], [tradeC10a, tradeC10b]⟩

def clientC10 : GateClient := ⟨SmartCache.empty, SmartCache.empty, 0⟩

def c10read1 := getWalletBalance clientC10 exC10a 0 "BTC"

def c10trades1 := getAllBuyTrades c10read1.2 exC10a 0 "BTC_USDT"

def c10afterOrder := placeSpotOrder c10trades1.2 1 "BTC_USDT" "buy" 1 10 true

def c10read2 := getWalletBalance c10afterOrder.2 exC10b 2 "BTC"

def c10trades2 := getAllBuyTrades c10afterOrder.2 exC10b 2 "BTC_USDT"

/-! ## Helper lemmas -/

lemma checkOpenOrders_eq_false : checkOpenOrders = false := by decide

lemma checkTrade_history (s : SafetySystem) (pnl : ℚ) :
    ((s.checkTrade pnl).2).tradeHistory = s.tradeHistory ++ [pnl] := by
  simp only [SafetySystem.checkTrade]
  split
  · rfl
  · split
    · split <;> rfl
    · rfl

lemma dcaMonitoring_safety (p : ScalpParams) (env : ScalpEnv) (v : EngineVars)
    (cur : ℚ) : (dcaMonitoring p env v cur).1.safety = v.safety := by
  simp only [dcaMonitoring]
  repeat' split
  all_goals rfl

lemma timeoutForcedSell_safety (p : ScalpParams) (env : ScalpEnv) (v : EngineVars)
    (cur : ℚ) (os : List Order) :
    (timeoutForcedSell p env v cur os).1.safety = v.safety := by
  simp only [timeoutForcedSell]
  repeat' split
  all_goals rfl

lemma timeout_dca_safety (p : ScalpParams) (env : ScalpEnv) (v : EngineVars)
    (cur : ℚ) :
    (timeoutForcedSell p env (dcaMonitoring p env v cur).1 cur
      (dcaMonitoring p env v cur).2).1.safety = v.safety := by
  rw [timeoutForcedSell_safety, dcaMonitoring_safety]

lemma stepPositionOpen_safety (p : ScalpParams) (env : ScalpEnv) (v : EngineVars) :
    (stepPositionOpen p env v).1.safety = v.safety := by
  simp only [stepPositionOpen]
  repeat' split
  all_goals first
    | rfl
    | exact timeout_dca_safety p env v (pyOr env.ticker v.entryPrice)

lemma dcaMonitoring_state_cases (p : ScalpParams) (env : ScalpEnv) (v : EngineVars)
    (cur : ℚ) :
    (dcaMonitoring p env v cur).1.state = v.state ∨
    (dcaMonitoring p env v cur).1.state = ScalpState.waitingForSell := by
  simp only [dcaMonitoring]
  repeat' split
  all_goals simp

lemma timeoutForcedSell_state_cases (p : ScalpParams) (env : ScalpEnv)
    (v : EngineVars) (cur : ℚ) (os : List Order) :
    (timeoutForcedSell p env v cur os).1.state = v.state ∨
    (timeoutForcedSell p env v cur os).1.state = ScalpState.waitingForSell := by
  simp only [timeoutForcedSell]
  repeat' split
  all_goals simp

lemma timeout_dca_state (p : ScalpParams) (env : ScalpEnv) (v : EngineVars)
    (cur : ℚ) :
    (timeoutForcedSell p env (dcaMonitoring p env v cur).1 cur
      (dcaMonitoring p env v cur).2).1.state = v.state ∨
    (timeoutForcedSell p env (dcaMonitoring p env v cur).1 cur
      (dcaMonitoring p env v cur).2).1.state = ScalpState.waitingForSell := by
  rcases timeoutForcedSell_state_cases p env (dcaMonitoring p env v cur).1 cur
      (dcaMonitoring p env v cur).2 with h | h
  · rw [h]
    exact dcaMonitoring_state_cases p env v cur
  · exact Or.inr h

lemma stepPositionOpen_state_cases (p : ScalpParams) (env : ScalpEnv) (v : EngineVars)
    (hpos : positionInfo env.balance ≠ 0) :
    (stepPositionOpen p env v).1.state = v.state ∨
    (stepPositionOpen p env v).1.state = ScalpState.waitingForSell := by
  simp only [stepPositionOpen, if_neg hpos]
  repeat' split
  all_goals first
    | (left; rfl)
    | (right; rfl)
    | exact timeout_dca_state p env v (pyOr env.ticker v.entryPrice)

/-! ## C5 scenario -/

/-- C5: `check_open_orders` always returns `False` — `GateIOClient` defines
no `list_spot_orders` method, so the call raises `AttributeError`, which the
bare `except` swallows — hence in `waitingForSell` with the base balance
still above dust the engine observes "no open sell order" and reverts to
`positionOpen`, recording nothing. -/
theorem check_open_orders_always_false (env : ScalpEnv) (v : EngineVars)
    (_hstate : v.state = ScalpState.waitingForSell)
    (hpos : positionInfo env.balance ≠ 0) :
    "list_spot_orders" ∉ gateIOClientMethods ∧
    checkOpenOrders = false ∧
    (stepWaitingForSell env v).1 = { v with state := ScalpState.positionOpen } ∧
    (stepWaitingForSell env v).2 = [] := by
  refine ⟨by decide, checkOpenOrders_eq_false, ?_, ?_⟩ <;>
    simp [stepWaitingForSell, hpos, checkOpenOrders_eq_false]

/-- C5 witness: the theorem at a concrete environment and engine state. -/
theorem check_open_orders_always_false_witness :
    "list_spot_orders" ∉ gateIOClientMethods ∧
    checkOpenOrders = false ∧
    (stepWaitingForSell envC5 varsC5).1 = { varsC5 with state := ScalpState.positionOpen } ∧
    (stepWaitingForSell envC5 varsC5).2 = [] :=
  check_open_orders_always_false envC5 varsC5 rfl (by norm_num [envC5, positionInfo])

/-! ## C1 scenario: aggressive buy at `bestAsk = 100` with 50 USDT, the
first balance poll confirming the fill without an exception. -/

/-- C1: the fill is confirmed on the first poll (`executed`), yet the
position is never recorded — the bookkeeping of lines 4862-4875 sits inside
the `except` handler — so `position_entry_price` stays 0 and the subsequent
`POSITION_OPEN` iteration places no sell even though the current price (200)
is far above the claimed target `entry · 1.01 ≈ 101.2`. -/
theorem buy_fill_bookkeeping_lost :
    optimalBuyPrice 100 = 501/5 ∧
    fillC1.executed = true ∧
    fillC1.attempts ≤ 25 ∧
    varsC1.state = ScalpState.positionOpen ∧
    varsC1.entryPrice = 0 ∧
    varsC1.quantity = 0 ∧
    optimalBuyPrice 100 * (1 + (1 : ℚ)/100) ≤ 200 ∧
    (stepPositionOpen pC1 envC1 varsC1).2 = [] ∧
    (stepPositionOpen pC1 envC1 varsC1).1.state = ScalpState.positionOpen := by
  norm_num [pC1, qtyC1, fillC1, envC1, varsC1, optimalBuyPrice, buyQty, round8,
    roundHalfEven, floor8, fillWaitLoop, afterBuyFill, initVars, stepPositionOpen,
    positionInfo, pyOr, strategyPnl, dcaMonitoring, timeoutForcedSell,
    SafetySystem.init]

/-! ## C4 scenario: `positionOpen`, entry 100, price 88 (P&L −12 %), no DCA
level activated, best bid 87 on the book. -/

/-- C4 counterexample: with P&L −12 % ≤ the level-3 trigger and level 3 not
activated, the engine does not sell — the `elif` chain lets the not-yet
activated level 1 fire first, emitting a DCA *buy* (100/88 base at
88·1.002), and the state stays `positionOpen`. -/
theorem stop_loss_shadowed_by_dca1 :
    strategyPnl 88 100 ≤ -10 ∧
    varsC4.dcaL3 = false ∧
    (stepPositionOpen pC4 envC4 varsC4).1.state = ScalpState.positionOpen ∧
    (stepPositionOpen pC4 envC4 varsC4).2 = [⟨Side.buy, 25/22, 11022/125⟩] ∧
    (∀ o ∈ (stepPositionOpen pC4 envC4 varsC4).2, ¬o.side = Side.sell) := by
  norm_num [pC4, envC4, varsC4, stepPositionOpen, positionInfo, pyOr,
    strategyPnl, dcaMonitoring, timeoutForcedSell, SafetySystem.init]
  decide

/-- C4 as amended: the stop-loss branch is reachable only with levels 1 and
2 already activated; it then sells the whole position at the best bid
itself (or `current · 0.995` when the book is unavailable) and, when the
order succeeds, activates level 3 and moves to `waitingForSell`. -/
theorem stop_loss_after_dca_levels (p : ScalpParams) (env : ScalpEnv) (v : EngineVars)
    (hpos : positionInfo env.balance ≠ 0)
    (hentry : 0 < v.entryPrice)
    (hL1 : v.dcaL1 = true) (hL2 : v.dcaL2 = true) (hL3 : v.dcaL3 = false)
    (htarget : pyOr env.ticker v.entryPrice < v.dcaAvg * (1 + p.targetPct / 100))
    (hpnl : strategyPnl (pyOr env.ticker v.entryPrice) v.entryPrice ≤ -10)
    (hsell : env.sellOk = true)
    (htimeout : ¬(0 < p.timeoutMinutes ∧ p.timeoutMinutes * 60 < env.now - v.positionTime)) :
    stepPositionOpen p env v =
      ({ v with dcaL3 := true, state := ScalpState.waitingForSell },
       [⟨Side.sell, v.quantity,
         match env.bestBid with
         | some b => b
         | none => pyOr env.ticker v.entryPrice * (995/1000)⟩]) := by
  have hpnl0 : strategyPnl (pyOr env.ticker v.entryPrice) v.entryPrice < 0 :=
    lt_of_le_of_lt hpnl (by norm_num)
  simp [stepPositionOpen, dcaMonitoring, timeoutForcedSell, hpos, hentry, hL1,
    hL2, hL3, hsell, hpnl0, hpnl, htimeout, not_le.mpr htarget]

/-- C4 witness: the amended theorem at a concrete input (entry 100, DCA
average 95, levels 1-2 active, price 88, best bid 87). -/
theorem stop_loss_after_dca_levels_witness :
    stepPositionOpen pC4 ⟨1, some 88, some 87, true, true, 0⟩
        { varsC4 with dcaL1 := true, dcaL2 := true, dcaAvg := 95 } =
      ({ varsC4 with dcaL1 := true, dcaL2 := true, dcaAvg := 95, dcaL3 := true,
                     state := ScalpState.waitingForSell },
       [⟨Side.sell, 1, 87⟩]) := by
  have h := stop_loss_after_dca_levels pC4 ⟨1, some 88, some 87, true, true, 0⟩
    { varsC4 with dcaL1 := true, dcaL2 := true, dcaAvg := 95 }
    (by norm_num [positionInfo]) (by norm_num [varsC4]) rfl rfl rfl
    (by norm_num [varsC4, pC4, pyOr]) (by norm_num [varsC4, pyOr, strategyPnl])
    rfl (by norm_num [pC4])
  simpa [varsC4] using h

/-! ## C3 scenario: a sale that completes while the engine has reverted to
`positionOpen` (there is never an open sell order visible). -/

/-- C3 counterexample: from `waitingForSell` with the balance above dust the
engine reverts to `positionOpen` (no order ever visible), and when the
balance then drops below dust the `positionOpen` handler returns to
`waitingToBuy` counting the trade — with zero realized-P&L samples recorded,
not exactly one. -/
theorem sale_completion_without_pnl_sample :
    positionInfo envC3a.balance ≠ 0 ∧
    varsC3'.state = ScalpState.positionOpen ∧
    varsC3''.state = ScalpState.waitingToBuy ∧
    varsC3''.tradesDone = varsC3.tradesDone + 1 ∧
    varsC3''.safety.tradeHistory.length = 0 ∧
    ¬varsC3''.safety.tradeHistory.length = 1 := by
  norm_num [varsC3, envC3a, envC3b, varsC3', varsC3'', stepWaitingForSell,
    stepPositionOpen, positionInfo, checkOpenOrders_eq_false, dcaMonitoring,
    timeoutForcedSell, SafetySystem.init]

/-- C3 as amended: control reaches `waitingToBuy` (from either the
`waitingForSell` or the `positionOpen` handler) only with the balance below
dust; the `waitingForSell` completion records exactly one P&L sample, but
the completion observed from `positionOpen` — reached whenever the balance
is above dust, since no open order is ever visible — records none. -/
theorem waiting_for_sell_transitions (p : ScalpParams) (env : ScalpEnv) (v : EngineVars) :
    ((stepWaitingForSell env v).1.state = ScalpState.waitingToBuy →
      positionInfo env.balance = 0) ∧
    (positionInfo env.balance = 0 →
      (stepWaitingForSell env v).1.state = ScalpState.waitingToBuy ∧
      (stepWaitingForSell env v).1.safety.tradeHistory.length
        = v.safety.tradeHistory.length + 1) ∧
    (positionInfo env.balance ≠ 0 →
      (stepWaitingForSell env v).1.state = ScalpState.positionOpen ∧
      (stepWaitingForSell env v).1.safety = v.safety) ∧
    (v.state = ScalpState.positionOpen →
      (stepPositionOpen p env v).1.state = ScalpState.waitingToBuy →
      positionInfo env.balance = 0) ∧
    (positionInfo env.balance = 0 →
      (stepPositionOpen p env v).1.state = ScalpState.waitingToBuy ∧
      (stepPositionOpen p env v).1.safety = v.safety) := by
  refine ⟨?_, ?_, ?_, ?_, ?_⟩
  · intro h
    by_cases hpos : positionInfo env.balance = 0
    · exact hpos
    · exfalso
      simp [stepWaitingForSell, hpos, checkOpenOrders_eq_false] at h
  · intro hpos
    constructor
    · simp [stepWaitingForSell, hpos]
    · simp [stepWaitingForSell, hpos, checkTrade_history]
  · intro hpos
    constructor <;> simp [stepWaitingForSell, hpos, checkOpenOrders_eq_false]
  · intro hv h
    by_cases hpos : positionInfo env.balance = 0
    · exact hpos
    · exfalso
      rcases stepPositionOpen_state_cases p env v hpos with hc | hc
      · rw [h, hv] at hc
        exact absurd hc (by simp)
      · rw [h] at hc
        exact absurd hc (by simp)
  · intro hpos
    refine ⟨by simp [stepPositionOpen, hpos], stepPositionOpen_safety p env v⟩

/-- C3 witness: the amended theorem applied at concrete inputs, both with
the balance above dust (revert path) and below dust (completion path). -/
theorem waiting_for_sell_transitions_witness :
    ((stepWaitingForSell envC3a varsC3).1.state = ScalpState.positionOpen ∧
      (stepWaitingForSell envC3a varsC3).1.safety = varsC3.safety) ∧
    ((stepWaitingForSell envC3b varsC3).1.state = ScalpState.waitingToBuy ∧
      (stepWaitingForSell envC3b varsC3).1.safety.tradeHistory.length
        = varsC3.safety.tradeHistory.length + 1) :=
  ⟨(waiting_for_sell_transitions ⟨1, 50, 0⟩ envC3a varsC3).2.2.1
      (by norm_num [envC3a, positionInfo]),
   (waiting_for_sell_transitions ⟨1, 50, 0⟩ envC3b varsC3).2.1
      (by norm_num [envC3b, positionInfo])⟩

/-! ## C2: safety-sample accumulation in the no-trade loop -/

lemma checkTrade_zeroSafety_lt (mdl mwr : ℚ) (h0 : 0 ≤ mdl) (n : ℕ)
    (hn : n + 1 < 5) :
    (zeroSafety mdl mwr n).checkTrade 0 = (true, zeroSafety mdl mwr (n + 1)) := by
  have hrep : List.replicate n (0:ℚ) ++ [0] = List.replicate (n + 1) 0 :=
    (List.replicate_succ' n (0:ℚ)).symm
  have hmdl : ¬((0:ℚ) < -mdl) := not_lt.mpr (neg_nonpos.mpr h0)
  simp only [SafetySystem.checkTrade, zeroSafety, hrep, add_zero,
    List.length_replicate]
  rw [if_neg hmdl, if_neg (by omega)]

lemma checkTrade_zeroSafety_ge (mdl mwr : ℚ) (h0 : 0 ≤ mdl) (h1 : 0 < mwr)
    (n : ℕ) (hn : 5 ≤ n + 1) :
    (zeroSafety mdl mwr n).checkTrade 0 = (false, zeroSafety mdl mwr (n + 1)) := by
  have hrep : List.replicate n (0:ℚ) ++ [0] = List.replicate (n + 1) 0 :=
    (List.replicate_succ' n (0:ℚ)).symm
  have hmdl : ¬((0:ℚ) < -mdl) := not_lt.mpr (neg_nonpos.mpr h0)
  have hfil : (List.replicate (n + 1) (0:ℚ)).filter (fun t => decide (0 < t)) = [] := by
    rw [List.filter_eq_nil_iff]
    intro a ha
    rw [List.eq_of_mem_replicate ha]
    simp
  simp only [SafetySystem.checkTrade, zeroSafety, hrep, add_zero,
    List.length_replicate]
  rw [if_neg hmdl, if_pos (by omega : 5 ≤ n + 1), hfil]
  simp [h1]

lemma scalpLoop_bound (mdl mwr : ℚ) (h0 : 0 ≤ mdl) (h1 : 0 < mwr)
    (maxTrades : ℕ) (hmt : maxTrades ≠ 0) (blocked : ℕ → Bool) :
    ∀ fuel n iters, iters ≤ n → n ≤ 2 * iters → n ≤ 4 → 5 ≤ fuel + n →
      (scalpNoTradeLoop maxTrades 10000 blocked fuel iters
        (zeroSafety mdl mwr n)).1 ≤ 4 ∧
      (scalpNoTradeLoop maxTrades 10000 blocked fuel iters
        (zeroSafety mdl mwr n)).2 = zeroSafety mdl mwr 5 := by
  intro fuel
  induction fuel with
  | zero => intro n iters _ _ h4 h5; omega
  | succ fuel ih =>
    intro n iters h2 h3 h4 h5
    by_cases hn : n + 1 < 5
    · rw [scalpNoTradeLoop, if_neg hmt, checkTrade_zeroSafety_lt mdl mwr h0 n hn]
      simp only [Bool.not_true, Bool.false_eq_true, if_false,
        if_neg (show ¬(10000 ≤ iters) by omega)]
      cases hb : blocked (iters + 1) with
      | true =>
        simp only [if_pos rfl]
        exact ih (n + 1) (iters + 1) (by omega) (by omega) (by omega) (by omega)
      | false =>
        simp only [Bool.false_eq_true, if_false]
        by_cases hn2 : n + 2 < 5
        · rw [checkTrade_zeroSafety_lt mdl mwr h0 (n + 1) (by omega)]
          simp only [Bool.not_true, Bool.false_eq_true, if_false]
          exact ih (n + 2) (iters + 1) (by omega) (by omega) (by omega) (by omega)
        · have hn3 : n = 3 := by omega
          subst hn3
          rw [checkTrade_zeroSafety_ge mdl mwr h0 h1 (3 + 1) (by omega)]
          refine ⟨by simp; omega, by simp⟩
    · have hn4 : n = 4 := by omega
      subst hn4
      rw [scalpNoTradeLoop, if_neg hmt,
        checkTrade_zeroSafety_ge mdl mwr h0 h1 4 (by omega)]
      refine ⟨by simp; omega, by simp⟩

lemma scalpLoop_blocked (mdl mwr : ℚ) (h0 : 0 ≤ mdl) (h1 : 0 < mwr)
    (maxTrades : ℕ) (hmt : maxTrades ≠ 0) :
    ∀ fuel iters, iters ≤ 4 → 5 ≤ fuel + iters →
      (scalpNoTradeLoop maxTrades 10000 (fun _ => true) fuel iters
        (zeroSafety mdl mwr iters)).1 = 4 := by
  intro fuel
  induction fuel with
  | zero => intro iters h4 h5; omega
  | succ fuel ih =>
    intro iters h4 h5
    by_cases hn : iters + 1 < 5
    · rw [scalpNoTradeLoop, if_neg hmt,
        checkTrade_zeroSafety_lt mdl mwr h0 iters hn]
      simp only [Bool.not_true, Bool.false_eq_true, if_false,
        if_neg (show ¬(10000 ≤ iters) by omega), if_pos rfl]
      exact ih (iters + 1) (by omega) (by omega)
    · rw [scalpNoTradeLoop, if_neg hmt,
        checkTrade_zeroSafety_ge mdl mwr h0 h1 iters (by omega)]
      simp
      omega

lemma scalpLoop_unblocked (mdl mwr : ℚ) (h0 : 0 ≤ mdl) (h1 : 0 < mwr)
    (maxTrades : ℕ) (hmt : maxTrades ≠ 0) (blocked : ℕ → Bool)
    (hbl : ∀ i, blocked i = false) :
    ∀ fuel iters, iters ≤ 2 → 5 ≤ fuel + 2 * iters →
      (scalpNoTradeLoop maxTrades 10000 blocked fuel iters
        (zeroSafety mdl mwr (2 * iters))).1 = 2 := by
  intro fuel
  induction fuel with
  | zero => intro iters h4 h5; omega
  | succ fuel ih =>
    intro iters h4 h5
    by_cases hn : 2 * iters + 1 < 5
    · rw [scalpNoTradeLoop, if_neg hmt,
        checkTrade_zeroSafety_lt mdl mwr h0 (2 * iters) hn]
      simp only [Bool.not_true, Bool.false_eq_true, if_false,
        if_neg (show ¬(10000 ≤ iters) by omega), hbl (iters + 1)]
      by_cases hn2 : 2 * iters + 2 < 5
      · rw [checkTrade_zeroSafety_lt mdl mwr h0 (2 * iters + 1) (by omega)]
        simp only [Bool.not_true, Bool.false_eq_true, if_false]
        have h2 : 2 * iters + 2 = 2 * (iters + 1) := by ring
        rw [h2]
        exact ih (iters + 1) (by omega) (by omega)
      · exact absurd hn2 (by omega)
    · rw [scalpNoTradeLoop, if_neg hmt,
        checkTrade_zeroSafety_ge mdl mwr h0 h1 (2 * iters) (by omega)]
      simp
      omega

/-- C2 counterexample: when the circuit-breaker `continue` path is taken on
every iteration (possible with prior order failures: `can_place_order` stays
false through a backoff window), only the guard's `check_trade(0)` runs, so
the win-rate denial arrives at the 5th sample after 4 completed loop
iterations — not within the claimed 3. -/
theorem no_trade_loop_four_iterations :
    (scalpNoTradeLoop 200 10000 (fun _ => true) 10000 0
      (SafetySystem.init (15/100) (3/10))).1 = 4 ∧
    ¬(scalpNoTradeLoop 200 10000 (fun _ => true) 10000 0
      (SafetySystem.init (15/100) (3/10))).1 ≤ 3 := by
  have h : (scalpNoTradeLoop 200 10000 (fun _ => true) 10000 0
      (SafetySystem.init (15/100) (3/10))).1 = 4 :=
    scalpLoop_blocked (15/100) (3/10) (by norm_num) (by norm_num) 200
      (by norm_num) 10000 0 (by norm_num) (by norm_num)
  exact ⟨h, by omega⟩

/-- C2 as amended: both the loop guard and the per-iteration safety check
append a 0-valued sample; with `min_win_rate > 0` and no completed trade the
5th `check_trade` call denies, so the loop always stops within 4 iterations
(within 2 when the circuit-breaker path never skips the body's check) and
the safety history ends with exactly five 0-valued samples — far below the
10000-iteration cap. -/
theorem no_trade_loop_denied_quickly (mdl mwr : ℚ) (maxTrades : ℕ)
    (blocked : ℕ → Bool) (h0 : 0 ≤ mdl) (h1 : 0 < mwr) (hmt : maxTrades ≠ 0) :
    (scalpNoTradeLoop maxTrades 10000 blocked 10000 0
      (SafetySystem.init mdl mwr)).1 ≤ 4 ∧
    (scalpNoTradeLoop maxTrades 10000 blocked 10000 0
      (SafetySystem.init mdl mwr)).2.tradeHistory = List.replicate 5 0 ∧
    (scalpNoTradeLoop maxTrades 10000 blocked 10000 0
      (SafetySystem.init mdl mwr)).1 < 10000 ∧
    ((∀ i, blocked i = false) →
      (scalpNoTradeLoop maxTrades 10000 blocked 10000 0
        (SafetySystem.init mdl mwr)).1 = 2) := by
  have hinit : SafetySystem.init mdl mwr = zeroSafety mdl mwr 0 := rfl
  have hb := scalpLoop_bound mdl mwr h0 h1 maxTrades hmt blocked 10000 0 0
    (by omega) (by omega) (by omega) (by omega)
  rw [hinit]
  refine ⟨hb.1, by rw [hb.2]; rfl, by omega, fun hbl => ?_⟩
  have := scalpLoop_unblocked mdl mwr h0 h1 maxTrades hmt blocked hbl 10000 0
    (by omega) (by omega)
  simpa using this

/-- C2 witness: the amended theorem at the interactive defaults
(`max_daily_loss = 0.15`, `min_win_rate = 0.30`, 200 trades) with the
breaker never blocking: the loop stops after exactly 2 iterations with five
0-valued samples. -/
theorem no_trade_loop_denied_quickly_witness :
    (scalpNoTradeLoop 200 10000 (fun _ => false) 10000 0
      (SafetySystem.init (15/100) (3/10))).1 ≤ 4 ∧
    (scalpNoTradeLoop 200 10000 (fun _ => false) 10000 0
      (SafetySystem.init (15/100) (3/10))).2.tradeHistory = List.replicate 5 0 ∧
    (scalpNoTradeLoop 200 10000 (fun _ => false) 10000 0
      (SafetySystem.init (15/100) (3/10))).1 = 2 := by
  have h := no_trade_loop_denied_quickly (15/100) (3/10) 200 (fun _ => false)
    (by norm_num) (by norm_num) (by norm_num)
  exact ⟨h.1, h.2.1, h.2.2.2 (fun _ => rfl)⟩

/-! ## C6: bot-status/budget invariant -/

/-- C6 counterexample: the health loop marks the dead worker `ERROR` and
bumps `errors_count` but never deallocates — the record keeps
`allocated_budget = 50` with a status outside `{starting, running}`,
violating the claimed iff — and `deallocate_budget` then releases the funds
of that `ERROR` bot without any refusal. -/
theorem dead_worker_keeps_allocation :
    checkWorkersHealth ["BTC_USDT"] botsC6
      = [⟨"BTC_USDT", BotState.errored, 50, 1⟩] ∧
    ¬budgetStatusInvariant ⟨"BTC_USDT", BotState.errored, 50, 1⟩ ∧
    deallocateBudget "BTC_USDT" (checkWorkersHealth ["BTC_USDT"] botsC6)
      = [⟨"BTC_USDT", BotState.errored, 0, 1⟩] := by
  refine ⟨?_, ?_, ?_⟩
  · simp [checkWorkersHealth, botsC6]
  · simp only [budgetStatusInvariant]
    intro h
    rcases (h.mp (by norm_num)) with hc | hc <;> exact absurd hc (by simp)
  · simp [checkWorkersHealth, deallocateBudget, botsC6]

/-- C6 as amended: on a dead worker the health loop sets `status = ERROR`
and increments `errors_count` while leaving every bot's `allocated_budget`
unchanged (so the claimed iff fails for the errored bot until a later
stop/deallocate), and `deallocate_budget` zeroes the allocation of the
addressed bot unconditionally — for any status — leaving other bots
untouched. -/
theorem health_loop_and_deallocate_behavior (dead : List String)
    (bots : List BotStatus) (b : BotStatus) (pair : String)
    (hb : b ∈ bots) (hd : b.pair ∈ dead) :
    { b with status := BotState.errored, errorsCount := b.errorsCount + 1 }
      ∈ checkWorkersHealth dead bots ∧
    (checkWorkersHealth dead bots).map (fun x => x.allocatedBudget)
      = bots.map (fun x => x.allocatedBudget) ∧
    (∀ x ∈ deallocateBudget pair bots, x.pair = pair → x.allocatedBudget = 0) ∧
    (∀ x ∈ deallocateBudget pair bots, ¬x.pair = pair → x ∈ bots) := by
  refine ⟨?_, ?_, ?_, ?_⟩
  · rw [checkWorkersHealth]
    refine List.mem_map.mpr ⟨b, hb, ?_⟩
    rw [if_pos hd]
  · rw [checkWorkersHealth, List.map_map]
    apply List.map_congr_left
    intro x _
    by_cases hx : x.pair ∈ dead <;> simp [hx]
  · intro x hx hpx
    rcases List.mem_map.mp hx with ⟨y, _, hy⟩
    by_cases hyp : y.pair = pair
    · rw [if_pos hyp] at hy
      rw [← hy]
    · rw [if_neg hyp] at hy
      rw [← hy] at hpx
      exact absurd hpx hyp
  · intro x hx hpx
    rcases List.mem_map.mp hx with ⟨y, hym, hy⟩
    by_cases hyp : y.pair = pair
    · rw [if_pos hyp] at hy
      rw [← hy] at hpx
      exact absurd hyp hpx
    · rw [if_neg hyp] at hy
      rw [← hy]
      exact hym

/-- C6 witness: the amended theorem at the one-bot scenario. -/
theorem health_loop_and_deallocate_behavior_witness :
    (⟨"BTC_USDT", BotState.errored, 50, 1⟩ : BotStatus)
      ∈ checkWorkersHealth ["BTC_USDT"] botsC6 ∧
    (∀ x ∈ deallocateBudget "BTC_USDT" botsC6,
      x.pair = "BTC_USDT" → x.allocatedBudget = 0) := by
  have h := health_loop_and_deallocate_behavior ["BTC_USDT"] botsC6
    ⟨"BTC_USDT", BotState.running, 50, 0⟩ "BTC_USDT"
    (by simp [botsC6]) (by simp)
  exact ⟨h.1, h.2.2.1⟩

/-! ## C7: sleep budget -/

lemma sanitize_ge_min (lim : SleepLimits) (d : ℚ) (ctx : SleepContext) :
    lim.minSleep ≤ sanitizeDuration lim d ctx := by
  unfold sanitizeDuration
  split
  · exact le_refl _
  · exact le_max_left _ _

lemma sanitize_le_maxSleep (lim : SleepLimits) (d : ℚ) (ctx : SleepContext)
    (hms : lim.minSleep ≤ lim.maxSleep)
    (hctx : ctx ≠ SleepContext.circuitBreaker) :
    sanitizeDuration lim d ctx ≤ lim.maxSleep := by
  unfold sanitizeDuration
  split
  · exact hms
  · apply max_le hms
    cases ctx with
    | circuitBreaker => exact absurd rfl hctx
    | apiRetry =>
      exact le_trans (min_le_left _ _) (min_le_right _ _)
    | _ =>
      exact le_trans (min_le_left _ _)
        (le_trans (min_le_right _ _) (min_le_left _ _))

lemma safeSleep_total_le (lim : SleepLimits) (m : SleepMgr) (hm : m.limits = lim)
    (d : ℚ) (ctx : SleepContext) (j : Bool) (jf : ℚ)
    (h0 : 0 < lim.minSleep) (hms : lim.minSleep ≤ lim.maxSleep)
    (hjf : 9/10 ≤ jf ∧ jf ≤ 11/10)
    (htot : m.totalSleepTime ≤ lim.maxTotalWait + lim.maxSleep / 10) :
    (safeSleep m d ctx j jf).2.totalSleepTime
      ≤ lim.maxTotalWait + lim.maxSleep / 10 ∧
    (safeSleep m d ctx j jf).2.limits = lim := by
  rw [safeSleep, hm]
  split
  · exact ⟨htot, hm⟩
  · rename_i hguard
    push_neg at hguard
    have hsd0 : 0 < sanitizeDuration lim d ctx :=
      lt_of_lt_of_le h0 (sanitize_ge_min lim d ctx)
    have hmin := sanitize_ge_min lim d ctx
    split
    · rename_i hjit
      have hctx : ctx ≠ SleepContext.circuitBreaker := hjit.2
      have hsdmax : sanitizeDuration lim d ctx ≤ lim.maxSleep :=
        sanitize_le_maxSleep lim d ctx hms hctx
      refine ⟨?_, by simp⟩
      show m.totalSleepTime + (lim.minSleep ⊔ sanitizeDuration lim d ctx * jf)
        ≤ lim.maxTotalWait + lim.maxSleep / 10
      have hadd : lim.minSleep ⊔ sanitizeDuration lim d ctx * jf
          ≤ sanitizeDuration lim d ctx + lim.maxSleep / 10 := by
        apply max_le
        · nlinarith
        · nlinarith
      nlinarith
    · refine ⟨?_, by simp⟩
      show m.totalSleepTime + sanitizeDuration lim d ctx
        ≤ lim.maxTotalWait + lim.maxSleep / 10
      nlinarith

lemma runSleeps_total_le (lim : SleepLimits) (calls : List SleepCall)
    (h0 : 0 < lim.minSleep) (hms : lim.minSleep ≤ lim.maxSleep)
    (hjf : ∀ c ∈ calls, 9/10 ≤ c.jitterFactor ∧ c.jitterFactor ≤ 11/10) :
    ∀ m : SleepMgr, m.limits = lim →
      m.totalSleepTime ≤ lim.maxTotalWait + lim.maxSleep / 10 →
      (runSleeps m calls).totalSleepTime ≤ lim.maxTotalWait + lim.maxSleep / 10 := by
  induction calls with
  | nil => intro m _ htot; exact htot
  | cons c rest ih =>
    intro m hm htot
    have hstep := safeSleep_total_le lim m hm c.duration c.ctx c.jitter
      c.jitterFactor h0 hms (hjf c (List.mem_cons_self c rest)) htot
    exact ih (fun x hx => hjf x (List.mem_cons_of_mem c hx))
      (safeSleep m c.duration c.ctx c.jitter c.jitterFactor).2 hstep.2 hstep.1

/-- C7 counterexample: (a) the trading-context manager's `max_total_wait` is
1800 s — 30 minutes, not the claimed 1 hour; (b) a `safe_sleep` whose
sanitized duration passes the budget check is then jitter-scaled ×1.1, so
the recorded cumulative sleep can exceed `max_total_wait` (here 11 > 10). -/
theorem sleep_budget_violations :
    createTradingSleepManager.limits.maxTotalWait = 1800 ∧
    ¬createTradingSleepManager.limits.maxTotalWait = 3600 ∧
    (safeSleep ⟨sleepLimC7, 0, 0⟩ 10 SleepContext.tradingCycle true (11/10)).1
      = true ∧
    (safeSleep ⟨sleepLimC7, 0, 0⟩ 10
      SleepContext.tradingCycle true (11/10)).2.totalSleepTime = 11 ∧
    sleepLimC7.maxTotalWait < 11 := by
  have hne : ¬SleepContext.tradingCycle = SleepContext.circuitBreaker := by decide
  have hs : sanitizeDuration ⟨1/10, 300, 1/2, 10⟩ 10 SleepContext.tradingCycle = 10 := by
    unfold sanitizeDuration
    norm_num
  refine ⟨rfl, by norm_num [createTradingSleepManager], ?_, ?_,
    by norm_num [sleepLimC7]⟩ <;>
    norm_num [safeSleep, hs, sleepLimC7, hne]

/-- C7 as amended: a call whose sanitized duration would push the recorded
total past `max_total_wait` returns false without sleeping; because the
budget check runs before jitter, the recorded cumulative sleep is bounded by
`max_total_wait + max_sleep/10` (the 10 % jitter margin on the final sleep)
rather than by `max_total_wait` itself; and the trading-context default
`max_total_wait` is 1800 s. -/
theorem sleep_budget_bounded_with_jitter (lim : SleepLimits)
    (calls : List SleepCall) (m : SleepMgr) (d : ℚ) (ctx : SleepContext)
    (j : Bool) (jf : ℚ)
    (h0 : 0 < lim.minSleep) (hms : lim.minSleep ≤ lim.maxSleep)
    (hmax : 0 ≤ lim.maxTotalWait)
    (hjf : ∀ c ∈ calls, 9/10 ≤ c.jitterFactor ∧ c.jitterFactor ≤ 11/10)
    (hblocked : m.limits.maxTotalWait
      < m.totalSleepTime + sanitizeDuration m.limits d ctx) :
    (runSleeps ⟨lim, 0, 0⟩ calls).totalSleepTime
      ≤ lim.maxTotalWait + lim.maxSleep / 10 ∧
    safeSleep m d ctx j jf = (false, m) ∧
    createTradingSleepManager.limits.maxTotalWait = 1800 := by
  refine ⟨?_, ?_, rfl⟩
  · have hnn : (0:ℚ) ≤ lim.maxTotalWait + lim.maxSleep / 10 := by nlinarith
    exact runSleeps_total_le lim calls h0 hms hjf ⟨lim, 0, 0⟩ rfl hnn
  · rw [safeSleep, if_pos hblocked]

/-- C7 witness: the amended theorem at the trading-manager limits, with one
jittered 10 s call and a blocked call on a manager already at its budget. -/
theorem sleep_budget_bounded_with_jitter_witness :
    (runSleeps ⟨⟨1/10, 30, 1/2, 1800⟩, 0, 0⟩
      [⟨10, SleepContext.tradingCycle, true, 1⟩]).totalSleepTime
      ≤ 1800 + 30 / 10 ∧
    safeSleep ⟨⟨1/10, 30, 1/2, 1800⟩, 1800, 60⟩ 5
      SleepContext.tradingCycle true 1 = (false, ⟨⟨1/10, 30, 1/2, 1800⟩, 1800, 60⟩) ∧
    createTradingSleepManager.limits.maxTotalWait = 1800 := by
  have h := sleep_budget_bounded_with_jitter ⟨1/10, 30, 1/2, 1800⟩
    [⟨10, SleepContext.tradingCycle, true, 1⟩]
    ⟨⟨1/10, 30, 1/2, 1800⟩, 1800, 60⟩ 5 SleepContext.tradingCycle true 1
    (by norm_num) (by norm_num) (by norm_num)
    (by intro c hc; simp at hc; rw [hc]; norm_num)
    (by unfold sanitizeDuration; norm_num)
  exact h

/-! ## C8: circuit breaker -/

lemma applyEvent_inv (b : CircuitBreaker) (e : CBEvent) (h : CBInv b) :
    CBInv (b.applyEvent e) := by
  cases e with
  | fail n =>
    simp only [CircuitBreaker.applyEvent, CircuitBreaker.recordFailure]
    split
    · rename_i hth
      intro _
      simpa using hth
    · intro hs
      exact le_trans (h hs) (Nat.le_succ _)
  | succ =>
    simp only [CircuitBreaker.applyEvent, CircuitBreaker.recordSuccess]
    split
    · intro hs
      exact absurd rfl hs
    · exact h
  | proceed n =>
    simp only [CircuitBreaker.applyEvent, CircuitBreaker.canProceed]
    cases hb : b.state with
    | closed =>
      intro hs
      exact h hs
    | opened =>
      by_cases hc : b.recoveryTimeout ≤ n - b.lastFailureTime
      · simp only [if_pos hc]
        intro _
        exact h (by rw [hb]; simp)
      · simp only [if_neg hc]
        exact h
    | halfOpen =>
      intro hs
      exact h hs

lemma foldl_applyEvent_inv (evs : List CBEvent) :
    ∀ b : CircuitBreaker, CBInv b →
      CBInv (evs.foldl CircuitBreaker.applyEvent b) := by
  induction evs with
  | nil => intro b h; exact h
  | cons e rest ih =>
    intro b h
    exact ih (b.applyEvent e) (applyEvent_inv b e h)

lemma runCB_inv (th : ℕ) (rt : ℚ) (evs : List CBEvent) :
    CBInv (runCB th rt evs) :=
  foldl_applyEvent_inv evs (CircuitBreaker.init th rt)
    (by intro h; exact absurd rfl h)

lemma recordFailure_opened (b : CircuitBreaker) (now : ℚ)
    (h : b.failureThreshold ≤ b.failureCount + 1) :
    (b.recordFailure now).state = CBState.opened ∧
    (b.recordFailure now).lastFailureTime = now := by
  simp [CircuitBreaker.recordFailure, h]

/-- C8: the repository's circuit breaking as the spec describes it, split
over its two implementations.  `OrderFailureTracker.can_place_order`
realizes the closed-state consecutive-failure backoff: right after a
failure that leaves the circuit closed, it returns false exactly while less
than `min(cooldown · backoffMultiplier^(consecutive−1), maxBackoff)`
seconds have passed.  `CircuitBreaker` (api_retry_manager.py) realizes the
transitions: a failure in closed opens iff the count reaches the threshold;
open half-opens via `can_proceed` once the recovery timeout elapses;
success in half-open closes and resets the count; a failure in any
*reachable* half-open state reopens and restamps the failure time. -/
theorem circuit_breaker_spec
    (t : OrderFailureTracker) (now d : ℚ)
    (b1 b2 b3 : CircuitBreaker) (nf n2 nh : ℚ)
    (th : ℕ) (rt : ℚ) (evs : List CBEvent)
    (ht : (t.recordFailure now).circuitOpen = false)
    (hb1 : b1.state = CBState.closed)
    (hb2 : b2.state = CBState.opened)
    (hb2c : b2.recoveryTimeout ≤ n2 - b2.lastFailureTime)
    (hb3 : b3.state = CBState.halfOpen)
    (hrun : (runCB th rt evs).state = CBState.halfOpen) :
    (((t.recordFailure now).canPlaceOrder (now + d)).1 = false ↔
      d < min (t.cooldownSeconds * t.backoffMultiplier
        ^ ((t.recordFailure now).consecutiveFailures - 1)) t.maxBackoff) ∧
    ((b1.recordFailure nf).state = CBState.opened ↔
      b1.failureThreshold ≤ b1.failureCount + 1) ∧
    b2.canProceed n2 = (true, { b2 with state := CBState.halfOpen }) ∧
    b3.recordSuccess = { b3 with state := CBState.closed, failureCount := 0 } ∧
    ((runCB th rt evs).recordFailure nh).state = CBState.opened ∧
    ((runCB th rt evs).recordFailure nh).lastFailureTime = nh := by
  refine ⟨?_, ?_, ?_, ?_, ?_⟩
  · by_cases hmax : t.maxFailures ≤ t.failureCount + 1
    · exfalso
      simp [OrderFailureTracker.recordFailure, hmax] at ht
    · have hrf : t.recordFailure now =
        { t with failureCount := t.failureCount + 1,
                 consecutiveFailures := t.consecutiveFailures + 1,
                 lastFailureTime := now } := by
        simp [OrderFailureTracker.recordFailure, hmax]
      rw [hrf] at ht ⊢
      simp only at ht
      simp only [OrderFailureTracker.canPlaceOrder, ht]
      have harith : now + d - now = d := by ring
      simp [harith, Nat.add_sub_cancel]
      split <;> simp_all
  · constructor
    · intro h
      by_contra hlt
      simp [CircuitBreaker.recordFailure, hlt, hb1] at h
    · intro h
      simp [CircuitBreaker.recordFailure, h]
  · simp only [CircuitBreaker.canProceed, hb2, if_pos hb2c]
  · simp [CircuitBreaker.recordSuccess, hb3]
  · have hinv := runCB_inv th rt evs
    have hcnt : (runCB th rt evs).failureThreshold
        ≤ (runCB th rt evs).failureCount := hinv (by rw [hrun]; simp)
    exact recordFailure_opened _ nh (le_trans hcnt (Nat.le_succ _))

/-- C8 witness: the theorem at a fresh tracker (one failure, breaker still
closed, queried 30 s later), concrete breakers in each state, and a breaker
run driven to half-open by five failures and a `can_proceed` after the
300 s recovery timeout. -/
theorem circuit_breaker_spec_witness :
    (((OrderFailureTracker.init.recordFailure 0).canPlaceOrder (0 + 30)).1 = false ↔
      (30 : ℚ) < min ((OrderFailureTracker.init.cooldownSeconds)
        * OrderFailureTracker.init.backoffMultiplier
        ^ ((OrderFailureTracker.init.recordFailure 0).consecutiveFailures - 1))
        OrderFailureTracker.init.maxBackoff) ∧
    (((CircuitBreaker.init 5 300).recordFailure 1).state = CBState.opened ↔
      (CircuitBreaker.init 5 300).failureThreshold
        ≤ (CircuitBreaker.init 5 300).failureCount + 1) ∧
    (⟨5, 300, 5, 0, CBState.opened⟩ : CircuitBreaker).canProceed 300
      = (true, { (⟨5, 300, 5, 0, CBState.opened⟩ : CircuitBreaker) with
                 state := CBState.halfOpen }) ∧
    (⟨5, 300, 5, 10, CBState.halfOpen⟩ : CircuitBreaker).recordSuccess
      = { (⟨5, 300, 5, 10, CBState.halfOpen⟩ : CircuitBreaker) with
          state := CBState.closed, failureCount := 0 } ∧
    ((runCB 5 300 evsC8).recordFailure 400).state = CBState.opened ∧
    ((runCB 5 300 evsC8).recordFailure 400).lastFailureTime = 400 :=
  circuit_breaker_spec OrderFailureTracker.init 0 30
    (CircuitBreaker.init 5 300) ⟨5, 300, 5, 0, CBState.opened⟩
    ⟨5, 300, 5, 10, CBState.halfOpen⟩ 1 300 400 5 300 evsC8
    (by norm_num [OrderFailureTracker.init, OrderFailureTracker.recordFailure])
    rfl rfl (by norm_num) rfl
    (by norm_num [runCB, evsC8, CircuitBreaker.init, CircuitBreaker.applyEvent,
      CircuitBreaker.recordFailure, CircuitBreaker.canProceed])

/-! ## C9: rate-limit skips inside the retry loop -/

lemma retryLoopGo_eq (maxAttempts : ℕ) (canReq : ℕ → Bool) :
    ∀ n k inv, k + n = maxAttempts + 1 →
      retryLoopGo maxAttempts canReq (List.range' k n) inv
        = inv + ((List.range' k n).filter canReq).length := by
  intro n
  induction n with
  | zero => intro k inv _; simp [retryLoopGo]
  | succ n ih =>
    intro k inv hk
    rw [List.range'_succ]
    by_cases hc : canReq k
    · by_cases hm : maxAttempts ≤ k
      · have hn0 : n = 0 := by omega
        subst hn0
        simp [retryLoopGo, hc, hm]
      · simp only [retryLoopGo, hc, if_true, if_neg hm]
        rw [ih (k + 1) (inv + 1) (by omega)]
        simp [List.filter_cons, hc]
        omega
    · simp only [retryLoopGo, hc, Bool.false_eq_true, if_false]
      rw [ih (k + 1) inv (by omega)]
      simp [List.filter_cons, hc]

lemma filter_length_lt {α : Type} (p : α → Bool) (l : List α) (a : α)
    (ha : a ∈ l) (hpa : p a = false) :
    (l.filter p).length < l.length := by
  induction l with
  | nil => cases ha
  | cons x xs ih =>
    rcases List.mem_cons.mp ha with h | h
    · subst h
      simp [List.filter_cons, hpa]
      exact Nat.lt_succ_of_le (List.length_filter_le p xs)
    · by_cases hx : p x
      · simpa [List.filter_cons, hx] using Nat.succ_lt_succ (ih h)
      · simp only [List.filter_cons, hx, Bool.false_eq_true, if_false]
        exact Nat.lt_succ_of_lt (ih h)

/-- C9 counterexample: with `max_attempts = 2`, a rate-limit cooldown on the
first loop pass leaves only one actual invocation (the claim would require
the full 2), and a cooldown covering every pass leaves zero invocations. -/
theorem rate_limit_skip_consumes_attempt :
    retryInvocations 2 (fun a => decide (a ≠ 1)) = 1 ∧
    ¬retryInvocations 2 (fun a => decide (a ≠ 1)) = 2 ∧
    retryInvocations 2 (fun _ => false) = 0 := by decide

/-- C9 as amended: the `continue` taken when `can_make_request()` is false
still consumes one of the `max_attempts` loop passes.  For an always-failing
operation, the number of actual invocations equals the number of passes
whose `can_make_request()` returned true — so each pass spent in local
rate-limit cooldown reduces the invocations available to the caller by one,
down to zero. -/
theorem retry_invocation_count (maxAttempts : ℕ) (canReq : ℕ → Bool)
    (i : ℕ) (hi : i ∈ List.range' 1 maxAttempts) (hskip : canReq i = false) :
    retryInvocations maxAttempts canReq
      = ((List.range' 1 maxAttempts).filter canReq).length ∧
    retryInvocations maxAttempts canReq ≤ maxAttempts ∧
    retryInvocations maxAttempts canReq < maxAttempts := by
  have heq : retryInvocations maxAttempts canReq
      = ((List.range' 1 maxAttempts).filter canReq).length := by
    rw [retryInvocations, retryLoopGo_eq maxAttempts canReq maxAttempts 1 0
      (by omega)]
    omega
  have hlen : (List.range' 1 maxAttempts).length = maxAttempts := by
    simp
  refine ⟨heq, ?_, ?_⟩
  · rw [heq]
    exact le_trans (List.length_filter_le canReq _) (le_of_eq hlen)
  · rw [heq]
    calc ((List.range' 1 maxAttempts).filter canReq).length
        < (List.range' 1 maxAttempts).length :=
          filter_length_lt canReq _ i hi hskip
      _ = maxAttempts := hlen

/-- C9 witness: the amended theorem at `max_attempts = 2` with the first
pass in cooldown. -/
theorem retry_invocation_count_witness :
    retryInvocations 2 (fun a => decide (a ≠ 1))
      = ((List.range' 1 2).filter (fun a => decide (a ≠ 1))).length ∧
    retryInvocations 2 (fun a => decide (a ≠ 1)) ≤ 2 ∧
    retryInvocations 2 (fun a => decide (a ≠ 1)) < 2 :=
  retry_invocation_count 2 (fun a => decide (a ≠ 1)) 1 (by decide) (by decide)

/-! ## C10: cache coherence around order placement -/

lemma alistLookup_erase {α : Type} (l : List (String × α)) (k : String) :
    alistLookup (alistErase l k) k = none := by
  induction l with
  | nil => rfl
  | cons p t ih =>
    by_cases hk : p.1 = k
    · simp only [alistErase, List.filter_cons, hk]
      simp only [alistErase] at ih
      simpa using ih
    · simp [alistErase, alistLookup, List.filter_cons, List.find?_cons, hk]

/-- C10 counterexample: the balance (5) and the fill history (one buy fill,
`o1`) are read and cached at `t = 0`; an order is placed at `t = 1` and
accepted, after which the exchange reports balance 7 and a second buy fill
`o2`; yet the reads at `t = 2` still return the pre-order cached values —
balance 5 and only the `o1` fill — because `place_spot_order` invalidates
neither cache entry. -/
theorem order_placement_keeps_stale_caches :
    c10read1.1 = 5 ∧ c10afterOrder.1 = true ∧
    c10read2.1 = 5 ∧ ¬c10read2.1 = 7 ∧
    c10trades2.1 = [⟨100, 1, 100, 1000, 1/5, "USDT", "o1"⟩] ∧
    sortByTsDesc (buildBuyTrades exC10b.myTrades)
      = [⟨10, 1, 10, 2000, 1/50, "USDT", "o2"⟩,
         ⟨100, 1, 100, 1000, 1/5, "USDT", "o1"⟩] ∧
    ¬c10trades2.1 = sortByTsDesc (buildBuyTrades exC10b.myTrades) := by
  have hS1 : ("BTC_USDT" : String) ≠ "" := by decide
  have hS2 : ("buy" : String) ≠ "" := by decide
  norm_num [c10read1, c10trades1, c10afterOrder, c10read2, c10trades2,
    clientC10, exC10a, exC10b, tradeC10a, tradeC10b, getWalletBalance,
    getAllBuyTrades, placeSpotOrder, cleanupCaches, SmartCache.get,
    SmartCache.setAt, SmartCache.empty, alistLookup, alistInsert, alistErase,
    minOrderValueWithMargin, buildBuyTrades, sortByTsDesc, insertByTsDesc,
    defaultTakerFee, hS1, hS2]

/-- C10 as amended: `place_spot_order` itself invalidates nothing — it
leaves the client either unchanged or passed through the periodic age-based
sweep only (a no-op within a minute of the last sweep) — so a balance read
within the 5 s TTL and a fill-history read within the 60 s TTL after an
order still return the pre-order cached values whatever the exchange now
holds (an empty fill fetch is the one thing never cached, lines 2642-2643).
The wallet-balance and buy-trades entries are popped only by the
dashboard's `_refresh_portfolio_data`, used by the manual order paths. -/
theorem cache_invalidation_only_in_refresh
    (c : GateClient) (now t : ℚ) (pair side currency : String)
    (amount price : ℚ) (acc : Bool) (v tc : ℚ) (ts : List BuyTrade)
    (tst : ℚ) (ex : ExchangeView)
    (hv : alistLookup c.priceCache.cache ("wallet_" ++ currency) = some v)
    (htc : alistLookup c.priceCache.cacheTimes ("wallet_" ++ currency) = some tc)
    (hage : t - tc ≤ 5)
    (hts : alistLookup c.statsCache.cache ("buy_trades_" ++ pair) = some ts)
    (htst : alistLookup c.statsCache.cacheTimes ("buy_trades_" ++ pair) = some tst)
    (hages : t - tst ≤ 60) :
    ((placeSpotOrder c now pair side amount price acc).2 = c ∨
      (placeSpotOrder c now pair side amount price acc).2 = cleanupCaches c now) ∧
    (now - c.lastCacheCleanup ≤ 60 → cleanupCaches c now = c) ∧
    (getWalletBalance c ex t currency).1 = v ∧
    (getAllBuyTrades c ex t pair).1 = ts ∧
    alistLookup ((refreshPortfolioData c pair).priceCache.cache)
      ("wallet_" ++ (pair.splitOn "_").headD pair) = none ∧
    alistLookup ((refreshPortfolioData c pair).statsCache.cache)
      ("buy_trades_" ++ pair) = none := by
  refine ⟨?_, ?_, ?_, ?_, ?_, ?_⟩
  · unfold placeSpotOrder
    repeat' split
    all_goals simp
  · intro h
    unfold cleanupCaches
    rw [if_neg (not_lt.mpr h)]
  · simp only [getWalletBalance, SmartCache.get, hv, htc, Option.getD_some]
    rw [if_neg (not_lt.mpr hage)]
  · simp only [getAllBuyTrades, SmartCache.get, hts, htst, Option.getD_some]
    rw [if_neg (not_lt.mpr hages)]
  · exact alistLookup_erase _ _
  · exact alistLookup_erase _ _

/-- C10 witness: the amended theorem on the client state holding the `t = 0`
cached balance and fill history, with the order placed at `t = 1` and the
reads at `t = 2`. -/
theorem cache_invalidation_only_in_refresh_witness :
    ((placeSpotOrder c10trades1.2 1 "BTC_USDT" "buy" 1 10 true).2 = c10trades1.2 ∨
      (placeSpotOrder c10trades1.2 1 "BTC_USDT" "buy" 1 10 true).2
        = cleanupCaches c10trades1.2 1) ∧
    ((1:ℚ) - c10trades1.2.lastCacheCleanup ≤ 60 →
      cleanupCaches c10trades1.2 1 = c10trades1.2) ∧
    (getWalletBalance c10trades1.2 exC10b 2 "BTC").1 = 5 ∧
    (getAllBuyTrades c10trades1.2 exC10b 2 "BTC_USDT").1
      = [⟨100, 1, 100, 1000, 1/5, "USDT", "o1"⟩] ∧
    alistLookup ((refreshPortfolioData c10trades1.2 "BTC_USDT").priceCache.cache)
      ("wallet_" ++ ("BTC_USDT".splitOn "_").headD "BTC_USDT") = none ∧
    alistLookup ((refreshPortfolioData c10trades1.2 "BTC_USDT").statsCache.cache)
      ("buy_trades_" ++ "BTC_USDT") = none := by
  have h := cache_invalidation_only_in_refresh c10trades1.2 1 2 "BTC_USDT"
    "buy" "BTC" 1 10 true 5 0 [⟨100, 1, 100, 1000, 1/5, "USDT", "o1"⟩] 0 exC10b
    (by norm_num [c10trades1, c10read1, clientC10, exC10a, tradeC10a,
      getWalletBalance, getAllBuyTrades, cleanupCaches, SmartCache.get,
      SmartCache.setAt, SmartCache.empty, alistLookup, alistInsert,
      alistErase, buildBuyTrades, sortByTsDesc, insertByTsDesc,
      defaultTakerFee])
    (by norm_num [c10trades1, c10read1, clientC10, exC10a, tradeC10a,
      getWalletBalance, getAllBuyTrades, cleanupCaches, SmartCache.get,
      SmartCache.setAt, SmartCache.empty, alistLookup, alistInsert,
      alistErase, buildBuyTrades, sortByTsDesc, insertByTsDesc,
      defaultTakerFee])
    (by norm_num)
    (by norm_num [c10trades1, c10read1, clientC10, exC10a, tradeC10a,
      getWalletBalance, getAllBuyTrades, cleanupCaches, SmartCache.get,
      SmartCache.setAt, SmartCache.empty, alistLookup, alistInsert,
      alistErase, buildBuyTrades, sortByTsDesc, insertByTsDesc,
      defaultTakerFee])
    (by norm_num [c10trades1, c10read1, clientC10, exC10a, tradeC10a,
      getWalletBalance, getAllBuyTrades, cleanupCaches, SmartCache.get,
      SmartCache.setAt, SmartCache.empty, alistLookup, alistInsert,
      alistErase, buildBuyTrades, sortByTsDesc, insertByTsDesc,
      defaultTakerFee])
    (by norm_num)
  exact h

end Evodash
